import Mathlib

/-!
# Verification of the SWF extraction/assembly orchestration pipeline

Shallow embedding of the orchestration logic of the Camtasia SWF-to-MP4
converter (src/src/tools/extractor.ts and src/src/tools/converter.ts), and
proofs settling the frozen claims about its specification.

Conventions of the embedding:
* JavaScript strings are Lean `String`s; string operations used by the code
  (`toLowerCase`, `endsWith`, `path.join`, `path.basename`, `path.extname`,
  regular-expression searches) are translated to explicit functions over
  the character lists below.
* `fs` reads (`existsSync`, `readdirSync`) are modelled over an explicit
  `DirState` describing the three directories the code inspects; each
  operation passes the state through so that freedom from side effects is
  a provable statement rather than an assumption.
* `Array.prototype.sort` (a stable comparison sort per ES2019; V8 runs a
  binary insertion sort on short arrays and TimSort above that) is modelled
  by the stable `List.insertionSort` over the relation `comparator a b ≤ 0`;
  any two stable comparison sorts agree whenever the comparator is
  consistent.
* JavaScript numbers are `ℚ`; `Math.round x` is `⌊x + 1/2⌋` (round half
  toward positive infinity), matching JS semantics on all inputs.
* External processes (the JPEXS decompiler, FFmpeg) are modelled by small
  event types enumerating the outcomes the code distinguishes.
-/

namespace Swf2Mp4

/-! ## String and path helpers (models of the Node.js primitives used) -/

/-- Model of `String.prototype.toLowerCase` (ASCII case folding suffices for
the file names compared by the code). -/
def jsToLowerCase (s : String) : String :=
  String.mk (s.data.map Char.toLower)

/-- Model of `String.prototype.endsWith`. -/
def strEndsWith (s suffixStr : String) : Bool :=
  suffixStr.data.isSuffixOf s.data

/-- Model of `path.join a b` for the simple (already normalised, relative or
absolute, slash-free second component) arguments the code passes. -/
def pathJoin (a b : String) : String :=
  a ++ "/" ++ b

/-- Model of `path.basename`: the component after the last separator.
The code only applies it to paths that do not end in a separator. -/
def basename (p : String) : String :=
  String.mk ((p.data.reverse.takeWhile (fun c => c ≠ '/')).reverse)

/-- Model of `path.extname`: the suffix of the basename from its last dot,
or the empty string when the basename has no dot or starts with its only
dot. -/
def extname (p : String) : String :=
  let b := (basename p).data
  let afterRev := b.reverse.takeWhile (fun c => c ≠ '.')
  if afterRev.length = b.length then ""
  else if b.length - afterRev.length - 1 = 0 then ""
  else String.mk ('.' :: afterRev.reverse)

/-- Model of `path.dirname`: everything before the last separator, `"."`
when there is none and `"/"` for a top-level path. -/
def dirname (p : String) : String :=
  let restRev := p.data.reverse.dropWhile (fun c => c ≠ '/')
  match restRev with
  | [] => "."
  | _ :: tl => if tl.isEmpty then "/" else String.mk tl.reverse

/-- Model of the two-argument `path.basename(p, ext)`: the basename with the
suffix `ext` removed when it is a proper suffix. -/
def basenameStrip (p ext : String) : String :=
  let b := basename p
  if ext ≠ "" ∧ ext.data.length < b.data.length ∧ strEndsWith b ext then
    String.mk (b.data.take (b.data.length - ext.data.length))
  else b

/-- Value of a (non-empty) digit string, as read by `parseInt`. -/
def digitsToNat (ds : List Char) : ℕ :=
  ds.foldl (fun n c => 10 * n + (c.toNat - ('0').toNat)) 0

/-- First maximal run of decimal digits in a character list: the capture of
the regular expression `/(\d+)/`, `none` when no digit occurs. -/
def firstDigitRun : List Char → Option (List Char)
  | [] => none
  | c :: rest =>
    if c.isDigit then some (c :: rest.takeWhile Char.isDigit)
    else firstDigitRun rest

/-- The numeric sort key the frame comparator computes for one path:
`parseInt` of the first digit run of `path.basename`. -/
def framePathKey (p : String) : Option ℕ :=
  (firstDigitRun (basename p).data).map digitsToNat

/-- Lexicographic "strictly less" on character lists, comparing code
units numerically. -/
def lexLtB : List Char → List Char → Bool
  | [], [] => false
  | [], _ :: _ => true
  | _ :: _, [] => false
  | a :: as, b :: bs =>
    if a.toNat < b.toNat then true
    else if b.toNat < a.toNat then false
    else lexLtB as bs

/-- Model of the default-locale `a.localeCompare(b)` as code-unit
(lexicographic) string comparison returning a signed integer. -/
def localeCompare (a b : String) : ℤ :=
  if lexLtB a.data b.data then -1 else if lexLtB b.data a.data then 1 else 0

/-- The comparator passed to `frameFiles.sort` in `analyzeExtractedContent`
(extractor.ts lines 555-562): numeric difference of the first digit runs of
the basenames when both exist, otherwise `localeCompare` of the full
paths. -/
def frameCmp (a b : String) : ℤ :=
  match framePathKey a, framePathKey b with
  | some na, some nb => (na : ℤ) - (nb : ℤ)
  | _, _ => localeCompare a b

/-- The "`a` may precede `b`" relation induced by `frameCmp`, used to run
the stable sort. -/
def frameRel (a b : String) : Prop :=
  frameCmp a b ≤ 0

instance : DecidableRel frameRel := fun a b =>
  inferInstanceAs (Decidable (frameCmp a b ≤ 0))

/-- Recognised frame files: `file.toLowerCase().endsWith('.png')`. -/
def isPngName (file : String) : Bool :=
  strEndsWith (jsToLowerCase file) ".png"

/-- Recognised audio extensions: `ext === '.mp3' || ext === '.wav' ||
ext === '.flv'` applied to `path.extname(file).toLowerCase()`. -/
def isAudioName (file : String) : Bool :=
  let ext := jsToLowerCase (extname file)
  ext = ".mp3" ∨ ext = ".wav" ∨ ext = ".flv"

/-! ## Filesystem state for the Content Reconciler -/

/-- The three directories `analyzeExtractedContent` inspects. -/
inductive DirKey where
  | frames
  | root
  | sounds
deriving DecidableEq, Repr

/-- Listings of the inspected directories; `none` means the directory does
not exist, `some l` is the `readdirSync` result in filesystem iteration
order. -/
structure DirState where
  framesListing : Option (List String)
  rootListing : Option (List String)
  soundsListing : Option (List String)
deriving DecidableEq, Repr

def DirState.listing (st : DirState) : DirKey → Option (List String)
  | .frames => st.framesListing
  | .root => st.rootListing
  | .sounds => st.soundsListing

/-- Model of `fs.existsSync` on one of the inspected directories: a read
that returns the state unchanged. -/
def fsExistsSync (k : DirKey) (st : DirState) : Bool × DirState :=
  ((st.listing k).isSome, st)

/-- Model of `fs.readdirSync` on one of the inspected directories: a read
that returns the state unchanged. -/
def fsReaddirSync (k : DirKey) (st : DirState) : List String × DirState :=
  ((st.listing k).getD [], st)

/-- Result of analyzing extracted SWF content (`ExtractedContent` in
extractor.ts). -/
structure ExtractedContent where
  framesDir : String
  frameFiles : List String
  audioFiles : List String
  frameCount : ℕ
deriving DecidableEq, Repr

/-- The Content Reconciler, `analyzeExtractedContent` (extractor.ts lines
523-581), with the filesystem reads threaded explicitly through the
state. -/
def analyzeExtractedContent (outputDir : String) (st0 : DirState) :
    ExtractedContent × DirState :=
  let framesDir := pathJoin outputDir "frames"
  let soundsDir := pathJoin outputDir "sounds"
  let (framesDirExists, st1) := fsExistsSync .frames st0
  let (framesInSubdir, st2) :=
    if framesDirExists then
      let (ls, st) := fsReaddirSync .frames st1
      (ls.filter isPngName, st)
    else ([], st1)
  let (rootExists, st3) := fsExistsSync .root st2
  let (framesInRoot, st4) :=
    if rootExists then
      let (ls, st) := fsReaddirSync .root st3
      (ls.filter isPngName, st)
    else ([], st3)
  let (frameFiles, actualFramesDir) :=
    if framesInSubdir.length > framesInRoot.length then
      (framesInSubdir.map (fun file => pathJoin framesDir file), framesDir)
    else
      (framesInRoot.map (fun file => pathJoin outputDir file), outputDir)
  let sortedFrameFiles := List.insertionSort frameRel frameFiles
  let (soundsExists, st5) := fsExistsSync .sounds st4
  let (audioFiles, st6) :=
    if soundsExists then
      let (ls, st) := fsReaddirSync .sounds st5
      ((ls.filter isAudioName).map (fun file => pathJoin soundsDir file), st)
    else ([], st5)
  ({ framesDir := actualFramesDir
     frameFiles := sortedFrameFiles
     audioFiles := audioFiles
     frameCount := sortedFrameFiles.length }, st6)

/-- The canonical manifest: first component of the reconciler run. -/
def reconcileManifest (outputDir : String) (st : DirState) : ExtractedContent :=
  (analyzeExtractedContent outputDir st).1

/-! ## Timeout computation (extractSWF, extractor.ts lines 308-338) -/

/-- `Math.round`: `⌊x + 1/2⌋`, rounding half toward positive infinity. -/
def jsRound (q : ℚ) : ℤ :=
  ⌊q + 1 / 2⌋

/-- Dynamic timeout in minutes computed from the source file size in MB
(extractor.ts lines 317-337): base 10, plus one minute per MB, plus half a
minute per MB above 20 MB, plus another half minute per MB above 50 MB,
rounded and floored at 10. -/
def dynamicTimeoutMinutes (fileSizeMB : ℚ) : ℤ :=
  let calculated0 : ℚ := 10 + fileSizeMB
  let calculated1 : ℚ :=
    if fileSizeMB > 20 then calculated0 + (fileSizeMB - 20) * (1 / 2) else calculated0
  let calculated2 : ℚ :=
    if fileSizeMB > 50 then calculated1 + (fileSizeMB - 50) * (1 / 2) else calculated1
  max 10 (jsRound calculated2)

/-- The timeout formula as the specification words it: base 10 minutes,
plus 1 minute per MB, plus 0.5 minutes per MB above 20 MB, plus 0.5 minutes
per MB above 50 MB, floored at 10. -/
def specTimeoutMinutes (s : ℚ) : ℤ :=
  max 10 (jsRound (10 + s + (1 / 2) * max 0 (s - 20) + (1 / 2) * max 0 (s - 50)))

/-- JavaScript truthiness of the optional `timeoutMinutes` argument:
`undefined` and `0` are falsy, any other (rational) number is truthy. -/
def jsTruthy : Option ℚ → Bool
  | none => false
  | some q => decide (q ≠ 0)

/-- The timeout selection of `extractSWF` (extractor.ts lines 312-338):
`if (timeoutMinutes)` uses the manual override verbatim, otherwise the
dynamic computation from the file size runs. -/
def computeTimeoutMinutes (timeoutMinutes : Option ℚ) (fileSizeMB : ℚ) : ℚ :=
  if jsTruthy timeoutMinutes then timeoutMinutes.getD 0
  else (dynamicTimeoutMinutes fileSizeMB : ℚ)

/-! ## The extraction run (extractSWF, extractor.ts lines 300-488) -/

/-- How the supervised JPEXS decompiler phase of one run settles: the first
of the `close` event (clean close), an `onError` callback (fatal stderr
pattern or a process-spawn error) or the timeout firing. -/
inductive JpexsEvent where
  | closed
  | fatalError (msg : String)
  | spawnError (msg : String)
  | timedOut
deriving DecidableEq, Repr

/-- How the FFmpeg fallback audio extraction would settle if run. -/
inductive AudioFallbackResult where
  | wrote
  | noStream
  | unavailable
  | failed (msg : String)
deriving DecidableEq, Repr

/-- Environment of one `extractSWF` run: how the supervision promise
settles, how the audio fallback settles, whether the decompiler process's
trailing `close` event is ready for delivery during the fallback await, and
how many `.png` files the two candidate frame locations hold once
extraction is over.

`closeEventReady` models the scheduling freedom Node leaves: the `close`
event is always emitted — after the process exits, or after a spawn
`error` — so even when `onError` settles the promise first, the pending
`close` is delivered on a later event-loop turn and its handler still runs
(extractor.ts lines 193, 384-387). The field says whether that event is
queued in time to be delivered while the FFmpeg fallback is awaited (it is
false, for example, when the decompiler never spawned a process — the
early `onError` returns at extractor.ts lines 129-137 — or when the
process is still running at check time). -/
structure ExtractScenario where
  jpexs : JpexsEvent
  audio : AudioFallbackResult
  closeEventReady : Bool
  pngInFramesSubdir : ℕ
  pngInRoot : ℕ
deriving DecidableEq, Repr

/-- The fallback audio extractor `extractAudioWithFFmpeg` (extractor.ts
lines 224-279): the fixed output path `<outputDir>/sounds/0.mp3`, resolving
on success and on an absent audio stream, rejecting when FFmpeg is missing
or errors otherwise. -/
def extractAudioWithFFmpeg (outputDir : String) (res : AudioFallbackResult) :
    String × Except String Unit :=
  let outputAudioPath := pathJoin (pathJoin outputDir "sounds") "0.mp3"
  (outputAudioPath,
    match res with
    | .wrote => .ok ()
    | .noStream => .ok ()
    | .unavailable => .error "FFmpeg not available for fallback audio extraction"
    | .failed msg => .error ("FFmpeg audio extraction failed: " ++ msg))

/-- Whether the supervision promise itself settled through the `close`
handler (which sets `jpexsSucceeded`, extractor.ts line 386). -/
def jpexsCleanClose : JpexsEvent → Bool
  | .closed => true
  | _ => false

/-- Whether one fallback settlement passes through macrotask turns of the
event loop before the `await` resumes: the missing-FFmpeg guard rejects
synchronously inside the promise constructor, before any process is
spawned (extractor.ts lines 226-229), so only microtasks elapse and no
pending child-process event can be delivered; every other path runs an
FFmpeg child process and yields the event loop many times. -/
def fallbackYieldsEventLoop : AudioFallbackResult → Bool
  | .unavailable => false
  | _ => true

deriving instance DecidableEq for Except

/-- Observable outcome of one `extractSWF` run: whether the FFmpeg audio
fallback was attempted, and the promise outcome. -/
structure ExtractRunResult where
  audioFallbackAttempted : Bool
  outcome : Except String Unit
deriving DecidableEq, Repr

/-- The high-level extraction `extractSWF` (extractor.ts lines 300-488).
A timeout rejects the awaited supervision promise (line 370), so control
jumps to the rethrowing catch block (lines 482-487) before the fallback is
reached. `onError` and `onClose` both resolve it (lines 382, 387), after
which the fallback always runs with its failure swallowed (lines 448-457).
The `close` handler mutates `jpexsSucceeded` whenever its event is
delivered, even after `onError` already resolved the promise (lines 193,
384-387); since the frames check at line 472 runs only after the awaited
fallback, the flag is set there iff the promise settled cleanly or the
pending `close` landed during the fallback — which needs the event to be
queued in time and the fallback to yield the event loop. The run then
throws exactly when the flag is unset and neither candidate frame location
holds a `.png` file (lines 461-474). -/
def extractSWF (sc : ExtractScenario) (outputDir : String) : ExtractRunResult :=
  match sc.jpexs with
  | .timedOut =>
      { audioFallbackAttempted := false
        outcome := .error "JPEXS extraction timed out" }
  | ev =>
      let _audioAttempt := extractAudioWithFFmpeg outputDir sc.audio
      let jpexsSucceeded :=
        jpexsCleanClose ev || (sc.closeEventReady && fallbackYieldsEventLoop sc.audio)
      let hasFrames := decide (0 < sc.pngInFramesSubdir) || decide (0 < sc.pngInRoot)
      { audioFallbackAttempted := true
        outcome :=
          if !jpexsSucceeded && !hasFrames then
            .error "JPEXS extraction failed completely and no frames were extracted"
          else .ok () }

/-! ## Frame-rate detection (detectSWFFrameRate, converter.ts lines 346-411) -/

/-- The whitespace class `\s` restricted to the characters FFmpeg emits. -/
def isSpaceChar (c : Char) : Bool :=
  c = ' ' ∨ c = '\t' ∨ c = '\n' ∨ c = '\r'

/-- Attempt, at one position of the text, a match of
`/(\d+(?:\.\d+)?)\s+<marker>/` and return the captured numeric value: a
non-empty digit run, a greedy optional fractional part (dropped again by
backtracking when the rest does not match), one or more whitespace
characters and the literal marker. -/
def tryNumberMatchAt (marker : List Char) (cs : List Char) : Option ℚ :=
  let ds := cs.takeWhile Char.isDigit
  let rest1 := cs.dropWhile Char.isDigit
  let spacesThenMarker : List Char → Bool := fun l =>
    let sp := l.takeWhile isSpaceChar
    let after := l.dropWhile isSpaceChar
    !sp.isEmpty && marker.isPrefixOf after
  if ds.isEmpty then none
  else
    match rest1 with
    | '.' :: r =>
        let fr := r.takeWhile Char.isDigit
        let rest2 := r.dropWhile Char.isDigit
        if !fr.isEmpty && spacesThenMarker rest2 then
          some ((digitsToNat ds : ℚ) + (digitsToNat fr : ℚ) / (10 : ℚ) ^ fr.length)
        else if spacesThenMarker rest1 then some (digitsToNat ds : ℚ)
        else none
    | _ => if spacesThenMarker rest1 then some (digitsToNat ds : ℚ) else none

/-- Leftmost match of `/(\d+(?:\.\d+)?)\s+<marker>/` over the whole text,
as `String.prototype.match` finds it. -/
def firstNumberBefore (marker : List Char) : List Char → Option ℚ
  | [] => none
  | c :: rest =>
    match tryNumberMatchAt marker (c :: rest) with
    | some v => some v
    | none => firstNumberBefore marker rest

/-- How one frame-rate analysis run settles: FFmpeg unavailable, a process
error, the 30-second timeout firing (the process is killed), or a clean
close with the captured stderr text. -/
inductive AnalysisRun where
  | ffmpegUnavailable
  | procError (msg : String)
  | timedOut
  | closed (stderrData : String)
deriving DecidableEq, Repr

/-- The frame-rate detector `detectSWFFrameRate` (converter.ts lines
346-411): on a clean close, the first `fps` match is used when it lies in
(0, 120], else the first `tbr` match when it lies in (0, 120], else 30;
every other way the run can settle resolves 30. -/
def detectSWFFrameRate (run : AnalysisRun) : ℕ :=
  match run with
  | .ffmpegUnavailable => 30
  | .procError _ => 30
  | .timedOut => 30
  | .closed stderrData =>
      match firstNumberBefore ['f', 'p', 's'] stderrData.data with
      | some fps =>
          if 0 < fps ∧ fps ≤ 120 then (jsRound fps).toNat
          else
            match firstNumberBefore ['t', 'b', 'r'] stderrData.data with
            | some tbr => if 0 < tbr ∧ tbr ≤ 120 then (jsRound tbr).toNat else 30
            | none => 30
      | none =>
          match firstNumberBefore ['t', 'b', 'r'] stderrData.data with
          | some tbr => if 0 < tbr ∧ tbr ≤ 120 then (jsRound tbr).toNat else 30
          | none => 30

/-- Acceptance step as the specification words it: a numeric match is
accepted when it lies in the open interval (0, 120], rounded to the nearest
integer. -/
def acceptableRate (v : Option ℚ) : Option ℕ :=
  v.bind fun q => if 0 < q ∧ q ≤ 120 then some (jsRound q).toNat else none

/-- The detector contract as the specification words it: search the
diagnostic text first for an `fps` marker, then a `tbr` marker, accept the
first numeric match in (0, 120] rounded, and fall back to the fixed default
30 in every other case. -/
def specFrameRateDetector (run : AnalysisRun) : ℕ :=
  match run with
  | .closed stderrData =>
      match acceptableRate (firstNumberBefore ['f', 'p', 's'] stderrData.data) with
      | some r => r
      | none =>
          match acceptableRate (firstNumberBefore ['t', 'b', 'r'] stderrData.data) with
          | some r => r
          | none => 30
  | _ => 30

/-! ## Conversion orchestration (convertSWF, converter.ts lines 95-144) -/

/-- Effective frame-rate resolution (converter.ts line 109): the caller's
rate wins when it differs from the literal default 30, otherwise the
detected rate is used. -/
def resolveEffectiveFrameRate (optionsFramerate detectedFrameRate : ℚ) : ℚ :=
  if optionsFramerate ≠ 30 then optionsFramerate else detectedFrameRate

/-! ## Assembly Driver (convertFramesToMP4, converter.ts lines 149-286) -/

/-- `createFramePattern` (converter.ts lines 255-286): derive the
printf-style FFmpeg input pattern from the first frame; every reachable
branch collapses to the sequential `%d` pattern in the first frame's
directory. -/
def createFramePattern (frameFiles : List String) : Option (String × ℕ) :=
  match frameFiles with
  | [] => none
  | firstFrame :: _ =>
    let frameDir := dirname firstFrame
    let ext := extname firstFrame
    let baseName := basenameStrip firstFrame ext
    if !baseName.data.isEmpty && baseName.data.all Char.isDigit then
      some (pathJoin frameDir ("%d" ++ ext), frameFiles.length)
    else if (2 ≤ baseName.data.length &&
        (baseName.data.getLast?.elim false Char.isDigit)) &&
        decide (1 < frameFiles.length) then
      some (pathJoin frameDir ("%d" ++ ext), frameFiles.length)
    else
      some (pathJoin frameDir ("%d" ++ ext), frameFiles.length)

/-- The encoder invocation the Assembly Driver builds, keeping the fields
the claims are about: the ordered input list, the frame rate, the codecs
and the output path. -/
structure AssemblyCommand where
  inputs : List String
  framerate : ℚ
  videoCodec : String
  audioCodec : Option String
  outputPath : String
deriving DecidableEq, Repr

/-- `convertFramesToMP4` (converter.ts lines 149-236): reject on an empty
frame list, reject when the frame pattern cannot be derived, reject when
the destination directory fails the create/delete write probe, otherwise
build the encode command — the frame pattern as first input and, only when
at least one audio file is present, the first audio file as second input
with the lossy `aac` codec. -/
def convertFramesToMP4 (content : ExtractedContent) (outputPath : String)
    (framerate : ℚ) (outputDirWritable : Bool) : Except String AssemblyCommand :=
  if content.frameFiles.length = 0 then
    .error "No frame files found for conversion"
  else
    match createFramePattern content.frameFiles with
    | none => .error "Could not create frame pattern for FFmpeg"
    | some framePattern =>
      if !outputDirWritable then
        .error ("Cannot write to output directory: " ++ dirname outputPath)
      else
        match content.audioFiles with
        | audioFile :: _ =>
            .ok { inputs := [framePattern.1, audioFile]
                  framerate := framerate
                  videoCodec := "libx264"
                  audioCodec := some "aac"
                  outputPath := outputPath }
        | [] =>
            .ok { inputs := [framePattern.1]
                  framerate := framerate
                  videoCodec := "libx264"
                  audioCodec := none
                  outputPath := outputPath }

/-! ## Derived definitions used in claim statements -/

/-- Recognised-frame count of one candidate directory listing. -/
def pngCountOf (o : Option (List String)) : ℕ :=
  ((o.getD []).filter isPngName).length

/-- Numeric key used in the C4 statements: the first-digit-run value of the
basename, defaulting to 0 for names without digits. -/
def framePathKeyD (p : String) : ℕ :=
  (framePathKey p).getD 0

/-- Ascending order of the numeric keys. -/
def keyRel (a b : String) : Prop :=
  framePathKeyD a ≤ framePathKeyD b

instance : DecidableRel keyRel := fun a b =>
  inferInstanceAs (Decidable (framePathKeyD a ≤ framePathKeyD b))

/-- Lexicographic (code-unit) order on the full paths: `a` not strictly
greater than `b`. -/
def lexRel (a b : String) : Prop :=
  lexLtB b.data a.data = false

instance : DecidableRel lexRel := fun a b =>
  inferInstanceAs (Decidable (lexLtB b.data a.data = false))

/-- The weakest reading of the claimed ordering on one pair: whenever both
file names carry a first digit run, the earlier file's numeric value must
not exceed the later one's. -/
def digitOrderOKB (a b : String) : Bool :=
  match framePathKey a, framePathKey b with
  | some ka, some kb => decide (ka ≤ kb)
  | _, _ => true

/-! ## Helper lemmas -/

lemma dynamicTimeout_eq_spec (S : ℚ) :
    dynamicTimeoutMinutes S = specTimeoutMinutes S := by
  simp only [dynamicTimeoutMinutes, specTimeoutMinutes, jsRound]
  rcases lt_or_le 50 S with h50 | h50 <;> rcases lt_or_le 20 S with h20 | h20
  · rw [if_pos h50, if_pos h20, max_eq_right (by linarith : (0 : ℚ) ≤ S - 20),
      max_eq_right (by linarith : (0 : ℚ) ≤ S - 50)]
    congr 2
    ring
  · linarith
  · rw [if_neg (by linarith : ¬ S > 50), if_pos h20,
      max_eq_right (by linarith : (0 : ℚ) ≤ S - 20),
      max_eq_left (by linarith : S - 50 ≤ (0 : ℚ))]
    congr 2
    ring
  · rw [if_neg (by linarith : ¬ S > 50), if_neg (by linarith : ¬ S > 20),
      max_eq_left (by linarith : S - 20 ≤ (0 : ℚ)),
      max_eq_left (by linarith : S - 50 ≤ (0 : ℚ))]
    congr 2
    ring

lemma specTimeout_mono {S₁ S₂ : ℚ} (h : S₁ ≤ S₂) :
    specTimeoutMinutes S₁ ≤ specTimeoutMinutes S₂ := by
  unfold specTimeoutMinutes
  apply max_le_max le_rfl
  unfold jsRound
  apply Int.floor_le_floor
  have g1 : max 0 (S₁ - 20) ≤ max 0 (S₂ - 20) := max_le_max le_rfl (by linarith)
  have g2 : max 0 (S₁ - 50) ≤ max 0 (S₂ - 50) := max_le_max le_rfl (by linarith)
  linarith

/-! ## Claim theorems -/

/-- **C2**: with no explicit override, the computed timeout in minutes equals
`max 10 (round (10 + S + 0.5·max 0 (S−20) + 0.5·max 0 (S−50)))` for the
source size `S` in MB; it is monotonically non-decreasing in `S` and never
less than 10 minutes. -/
theorem timeout_formula_correct_monotone_floored (S S₁ S₂ : ℚ) (h : S₁ ≤ S₂) :
    dynamicTimeoutMinutes S = specTimeoutMinutes S ∧
    dynamicTimeoutMinutes S₁ ≤ dynamicTimeoutMinutes S₂ ∧
    10 ≤ dynamicTimeoutMinutes S := by
  refine ⟨dynamicTimeout_eq_spec S, ?_, le_max_left _ _⟩
  rw [dynamicTimeout_eq_spec S₁, dynamicTimeout_eq_spec S₂]
  exact specTimeout_mono h

theorem timeout_formula_correct_monotone_floored_witness :
    dynamicTimeoutMinutes 25 = specTimeoutMinutes 25 ∧
    dynamicTimeoutMinutes 2 ≤ dynamicTimeoutMinutes 25 ∧
    10 ≤ dynamicTimeoutMinutes 25 :=
  timeout_formula_correct_monotone_floored 25 2 25 (by norm_num)

/-- **C1 (counterexample)**: a run whose decompiler phase times out with one
frame already on disk ends in a hard failure, refuting "hard failure iff the
decompiler did not close cleanly and zero frame files exist". -/
theorem extraction_hard_failure_iff_cex :
    ¬ (((extractSWF ⟨.timedOut, .noStream, false, 1, 0⟩ "out").outcome.isOk = false) ↔
        (jpexsCleanClose (ExtractScenario.mk .timedOut .noStream false 1 0).jpexs = false ∧
         (ExtractScenario.mk .timedOut .noStream false 1 0).pngInFramesSubdir = 0 ∧
         (ExtractScenario.mk .timedOut .noStream false 1 0).pngInRoot = 0)) := by
  decide

/-- **C1 (amended)**: an extraction run ends in a hard failure iff the
decompiler timed out, or the supervision promise settled via a fatal or
spawn error, the process's trailing `close` event was not delivered before
the frames check (it lands in time exactly when it was queued and the
awaited fallback yields the event loop), and zero frame files exist
afterwards. In particular a timeout always throws even with frames on
disk, a fatal error with at least one frame never throws, and a fatal
error whose `close` event lands during the fallback resolves even with
zero frames. -/
theorem extraction_hard_failure_iff_amended (sc : ExtractScenario) (outputDir : String) :
    (extractSWF sc outputDir).outcome.isOk = false ↔
      (sc.jpexs = .timedOut ∨
        (jpexsCleanClose sc.jpexs = false ∧
         (sc.closeEventReady && fallbackYieldsEventLoop sc.audio) = false ∧
         sc.pngInFramesSubdir = 0 ∧ sc.pngInRoot = 0)) := by
  obtain ⟨ev, audio, ready, a, b⟩ := sc
  cases ev with
  | closed => simp [extractSWF, jpexsCleanClose, Except.isOk, Except.toBool]
  | timedOut => simp [extractSWF, Except.isOk, Except.toBool]
  | fatalError msg =>
      cases hy : ready && fallbackYieldsEventLoop audio <;>
        by_cases ha : a = 0 <;> by_cases hb : b = 0 <;>
          simp [extractSWF, jpexsCleanClose, Except.isOk, Except.toBool, hy, ha, hb,
            Nat.pos_of_ne_zero]
  | spawnError msg =>
      cases hy : ready && fallbackYieldsEventLoop audio <;>
        by_cases ha : a = 0 <;> by_cases hb : b = 0 <;>
          simp [extractSWF, jpexsCleanClose, Except.isOk, Except.toBool, hy, ha, hb,
            Nat.pos_of_ne_zero]

/-- **C6**: whenever the decompiler phase completes (it did not time out),
the FFmpeg audio fallback is attempted and its fixed target path is
`<outputDir>/sounds/0.mp3`; the fallback's own error is swallowed — the run
outcome is success or the no-frames extraction failure, never the fallback
error — and the outcome is unchanged between any two fallback results with
the same event-loop yielding behaviour (in particular between a successful
fallback and an FFmpeg error). Only the synchronous missing-FFmpeg
rejection can differ, by denying the pending decompiler `close` event the
turns it needs to land before the frames check. -/
theorem audio_fallback_always_attempted (sc : ExtractScenario) (outputDir : String)
    (a₁ a₂ : AudioFallbackResult) (h : sc.jpexs ≠ .timedOut)
    (hyield : fallbackYieldsEventLoop a₁ = fallbackYieldsEventLoop a₂) :
    (extractSWF sc outputDir).audioFallbackAttempted = true ∧
    (extractAudioWithFFmpeg outputDir sc.audio).1 =
      pathJoin (pathJoin outputDir "sounds") "0.mp3" ∧
    ((extractSWF sc outputDir).outcome = .ok () ∨
      (extractSWF sc outputDir).outcome =
        .error "JPEXS extraction failed completely and no frames were extracted") ∧
    (extractSWF { sc with audio := a₁ } outputDir).outcome =
      (extractSWF { sc with audio := a₂ } outputDir).outcome := by
  obtain ⟨ev, audio, ready, x, y⟩ := sc
  refine ⟨?_, rfl, ?_, ?_⟩
  · cases ev <;> first | rfl | exact absurd rfl h
  · cases ev with
    | timedOut => exact absurd rfl h
    | closed => left; rfl
    | fatalError msg =>
        simp only [extractSWF]
        split
        · right; rfl
        · left; rfl
    | spawnError msg =>
        simp only [extractSWF]
        split
        · right; rfl
        · left; rfl
  · cases ev with
    | timedOut => rfl
    | closed => rfl
    | fatalError msg => simp only [extractSWF]; rw [hyield]
    | spawnError msg => simp only [extractSWF]; rw [hyield]

theorem audio_fallback_always_attempted_witness :
    (extractSWF ⟨.fatalError "Bad Commandline Arguments", .failed "boom", false, 3, 0⟩
        "out").audioFallbackAttempted = true ∧
    (extractAudioWithFFmpeg "out"
        (ExtractScenario.mk (.fatalError "Bad Commandline Arguments")
          (.failed "boom") false 3 0).audio).1 =
      pathJoin (pathJoin "out" "sounds") "0.mp3" ∧
    ((extractSWF ⟨.fatalError "Bad Commandline Arguments", .failed "boom", false, 3, 0⟩
        "out").outcome = .ok () ∨
      (extractSWF ⟨.fatalError "Bad Commandline Arguments", .failed "boom", false, 3, 0⟩
        "out").outcome =
        .error "JPEXS extraction failed completely and no frames were extracted") ∧
    (extractSWF ⟨.fatalError "Bad Commandline Arguments", .wrote, false, 3, 0⟩
        "out").outcome =
      (extractSWF ⟨.fatalError "Bad Commandline Arguments", .failed "later", false, 3, 0⟩
        "out").outcome :=
  audio_fallback_always_attempted
    ⟨.fatalError "Bad Commandline Arguments", .failed "boom", false, 3, 0⟩
    "out" .wrote (.failed "later") (by decide) (by decide)

/-- **C7**: for a conversion request the caller's explicit frame rate wins
whenever it differs from the default 30; the literal value 30 is treated as
no explicit preference and the detected rate is used instead. -/
theorem effective_frame_rate_resolution (f d : ℚ) :
    (f ≠ 30 → resolveEffectiveFrameRate f d = f) ∧
    (f = 30 → resolveEffectiveFrameRate f d = d) := by
  constructor <;> intro h <;> simp [resolveEffectiveFrameRate, h]

theorem effective_frame_rate_resolution_witness :
    resolveEffectiveFrameRate 25 12 = 25 ∧ resolveEffectiveFrameRate 30 12 = 12 :=
  ⟨(effective_frame_rate_resolution 25 12).1 (by norm_num),
   (effective_frame_rate_resolution 30 12).2 rfl⟩

/-- **C10**: an override of 0 minutes (or an absent override) falls back to
the dynamic size-based computation; a nonzero override is honored
verbatim. -/
theorem timeout_override_truthiness (S q : ℚ) (h : q ≠ 0) :
    computeTimeoutMinutes (some 0) S = computeTimeoutMinutes none S ∧
    computeTimeoutMinutes none S = (dynamicTimeoutMinutes S : ℚ) ∧
    computeTimeoutMinutes (some q) S = q := by
  refine ⟨?_, rfl, ?_⟩
  · simp [computeTimeoutMinutes, jsTruthy]
  · simp [computeTimeoutMinutes, jsTruthy, h]

theorem timeout_override_truthiness_witness :
    computeTimeoutMinutes (some 0) 2 = computeTimeoutMinutes none 2 ∧
    computeTimeoutMinutes none 2 = (dynamicTimeoutMinutes 2 : ℚ) ∧
    computeTimeoutMinutes (some 1) 2 = 1 :=
  timeout_override_truthiness 2 1 (by norm_num)

/-- **C5**: the frame-rate detector searches the captured diagnostic text
first for an `fps` marker, then for a `tbr` marker, resolves to the first
numeric match in (0, 120] rounded to the nearest integer, and resolves to
the fixed default 30 when neither marker matches, the value is out of
range, the process errors, FFmpeg is unavailable, or the 30-second bounded
wait elapses. -/
theorem frame_rate_detector_matches_spec (run : AnalysisRun) :
    detectSWFFrameRate run = specFrameRateDetector run := by
  cases run with
  | ffmpegUnavailable => rfl
  | procError msg => rfl
  | timedOut => rfl
  | closed s =>
    simp only [detectSWFFrameRate, specFrameRateDetector, acceptableRate]
    cases hf : firstNumberBefore ['f', 'p', 's'] s.data <;>
      cases ht : firstNumberBefore ['t', 'b', 'r'] s.data <;>
        simp [hf, ht] <;> split_ifs <;> rfl

lemma pathJoin_ne (d s : String) : pathJoin d s ≠ d := by
  intro heq
  have hlen := congrArg String.length heq
  simp only [pathJoin, String.length_append] at hlen
  have h1 : ("/" : String).length = 1 := rfl
  omega

lemma reconcile_framesDir_eq (d : String) (st : DirState) :
    (reconcileManifest d st).framesDir =
      (if pngCountOf st.rootListing < pngCountOf st.framesListing
       then pathJoin d "frames" else d) := by
  obtain ⟨fl, rl, sl⟩ := st
  cases fl <;> cases rl <;> cases sl <;>
    simp [reconcileManifest, analyzeExtractedContent, fsExistsSync, fsReaddirSync,
      DirState.listing, pngCountOf] <;>
    split_ifs <;> rfl

/-- **C3**: the Content Reconciler resolves the manifest to exactly one of
the two candidate layouts; the frames subdirectory is chosen iff it holds
strictly more recognised frame files than the output root, and on a tie
(including both empty) the root layout is chosen. -/
theorem reconciler_layout_choice (d : String) (st : DirState) :
    ((reconcileManifest d st).framesDir = d ∨
      (reconcileManifest d st).framesDir = pathJoin d "frames") ∧
    ((reconcileManifest d st).framesDir = pathJoin d "frames" ↔
      pngCountOf st.rootListing < pngCountOf st.framesListing) ∧
    (pngCountOf st.framesListing ≤ pngCountOf st.rootListing →
      (reconcileManifest d st).framesDir = d) := by
  have hchar := reconcile_framesDir_eq d st
  refine ⟨?_, ?_, ?_⟩
  · rw [hchar]; split_ifs <;> simp
  · rw [hchar]; split_ifs with hlt
    · simp [hlt]
    · simp [hlt, (pathJoin_ne d "frames").symm]
  · intro hle; rw [hchar, if_neg (by omega)]

theorem reconciler_layout_choice_witness :
    (reconcileManifest "out" ⟨some ["1.png"], some ["2.png"], none⟩).framesDir
      = "out" :=
  (reconciler_layout_choice "out" ⟨some ["1.png"], some ["2.png"], none⟩).2.2
    (by decide)

/-- **C9**: the Content Reconciler is idempotent — it never changes the
directory tree, and running it twice in succession on the same output
directory yields identical manifests. -/
theorem reconciler_idempotent (d : String) (st : DirState) :
    (analyzeExtractedContent d ((analyzeExtractedContent d st).2)).1 =
      (analyzeExtractedContent d st).1 ∧
    (analyzeExtractedContent d st).2 = st := by
  have hstate : ∀ s : DirState, (analyzeExtractedContent d s).2 = s := by
    intro s
    obtain ⟨fl, rl, sl⟩ := s
    cases fl <;> cases rl <;> cases sl <;>
      simp [analyzeExtractedContent, fsExistsSync, fsReaddirSync, DirState.listing]
  exact ⟨by rw [hstate st], hstate st⟩

/-- **C8**: the Assembly Driver rejects immediately when the manifest has
zero frames; whenever it builds a command, an audio input is present iff
the manifest's audio list is non-empty, and in that case the first audio
file of the list is the one added as the second input. -/
theorem assembly_driver_contract (content : ExtractedContent) (out : String)
    (fr : ℚ) (w : Bool) :
    (content.frameFiles = [] →
      convertFramesToMP4 content out fr w =
        .error "No frame files found for conversion") ∧
    (∀ cmd, convertFramesToMP4 content out fr w = .ok cmd →
      ((content.audioFiles = [] → ∃ p, cmd.inputs = [p]) ∧
       (∀ a rest, content.audioFiles = a :: rest → ∃ p, cmd.inputs = [p, a]))) := by
  constructor
  · intro hempty
    simp [convertFramesToMP4, hempty]
  · intro cmd hok
    rcases hfr : content.frameFiles with _ | ⟨f, fs⟩
    · simp [convertFramesToMP4, hfr] at hok
    · rcases hau : content.audioFiles with _ | ⟨a, rest⟩ <;>
        constructor <;>
        simp only [convertFramesToMP4, hfr, hau, createFramePattern] at hok ⊢ <;>
        intros <;>
        (split_ifs at hok <;> simp_all <;> exact ⟨_, by rw [← hok]⟩)

theorem assembly_driver_contract_witness :
    convertFramesToMP4 ⟨"t", [], [], 0⟩ "o/v.mp4" 30 true =
      .error "No frame files found for conversion" ∧
    (∃ p,
      (AssemblyCommand.mk ["tmp/frames/%d.png", "tmp/sounds/0.mp3"] 30 "libx264"
        (some "aac") "o/v.mp4").inputs = [p, "tmp/sounds/0.mp3"]) :=
  ⟨(assembly_driver_contract ⟨"t", [], [], 0⟩ "o/v.mp4" 30 true).1 rfl,
   ((assembly_driver_contract
      ⟨"tmp/frames", ["tmp/frames/1.png", "tmp/frames/2.png"],
        ["tmp/sounds/0.mp3"], 2⟩ "o/v.mp4" 30 true).2
      (AssemblyCommand.mk ["tmp/frames/%d.png", "tmp/sounds/0.mp3"] 30 "libx264"
        (some "aac") "o/v.mp4") (by decide)).2 "tmp/sounds/0.mp3" [] rfl⟩


/-! ## C4: ordering of the reconciled frame list -/

lemma char_eq_of_toNat_eq {a b : Char} (h : a.toNat = b.toNat) : a = b := by
  rw [← Char.ofNat_toNat a, ← Char.ofNat_toNat b, h]

lemma lexLtB_asymm : ∀ (l r : List Char), lexLtB l r = true → lexLtB r l = false
  | [], [], h => by simp [lexLtB] at h
  | [], _ :: _, _ => by simp [lexLtB]
  | _ :: _, [], h => by simp [lexLtB] at h
  | a :: as, b :: bs, h => by
      simp only [lexLtB] at h ⊢
      by_cases h1 : a.toNat < b.toNat
      · rw [if_neg (by omega), if_pos h1]
      · rw [if_neg h1] at h
        by_cases h2 : b.toNat < a.toNat
        · rw [if_pos h2] at h
          exact absurd h (by simp)
        · rw [if_neg h2] at h
          rw [if_neg h2, if_neg h1]
          exact lexLtB_asymm as bs h

lemma lexLtB_trichotomy : ∀ (l r : List Char),
    lexLtB l r = true ∨ l = r ∨ lexLtB r l = true
  | [], [] => Or.inr (Or.inl rfl)
  | [], _ :: _ => Or.inl (by simp [lexLtB])
  | _ :: _, [] => Or.inr (Or.inr (by simp [lexLtB]))
  | a :: as, b :: bs => by
      rcases Nat.lt_trichotomy a.toNat b.toNat with h | h | h
      · exact Or.inl (by simp [lexLtB, h])
      · have hab : a = b := char_eq_of_toNat_eq h
        subst hab
        rcases lexLtB_trichotomy as bs with h2 | h2 | h2
        · exact Or.inl (by simp [lexLtB, h2])
        · exact Or.inr (Or.inl (by rw [h2]))
        · exact Or.inr (Or.inr (by simp [lexLtB, h2]))
      · exact Or.inr (Or.inr (by simp [lexLtB, h]))

lemma lexLtB_trans : ∀ (l r s : List Char),
    lexLtB l r = true → lexLtB r s = true → lexLtB l s = true
  | [], [], _, h1, _ => by simp [lexLtB] at h1
  | [], _ :: _, [], _, h2 => by simp [lexLtB] at h2
  | [], _ :: _, _ :: _, _, _ => by simp [lexLtB]
  | _ :: _, [], _, h1, _ => by simp [lexLtB] at h1
  | _ :: _, _ :: _, [], _, h2 => by simp [lexLtB] at h2
  | a :: as, b :: bs, c :: cs, h1, h2 => by
      simp only [lexLtB] at h1 h2 ⊢
      by_cases hab : a.toNat < b.toNat
      · by_cases hbc : b.toNat < c.toNat
        · rw [if_pos (by omega)]
        · rw [if_neg hbc] at h2
          by_cases hcb : c.toNat < b.toNat
          · rw [if_pos hcb] at h2
            exact absurd h2 (by simp)
          · rw [if_pos (by omega)]
      · rw [if_neg hab] at h1
        by_cases hba : b.toNat < a.toNat
        · rw [if_pos hba] at h1
          exact absurd h1 (by simp)
        · rw [if_neg hba] at h1
          by_cases hbc : b.toNat < c.toNat
          · rw [if_pos (by omega)]
          · rw [if_neg hbc] at h2
            by_cases hcb : c.toNat < b.toNat
            · rw [if_pos hcb] at h2
              exact absurd h2 (by simp)
            · rw [if_neg hcb] at h2
              rw [if_neg (by omega), if_neg (by omega)]
              exact lexLtB_trans as bs cs h1 h2

lemma orderedInsert_congr {α : Type} (r1 r2 : α → α → Prop)
    [DecidableRel r1] [DecidableRel r2] (a : α) :
    ∀ (l : List α), (∀ x ∈ l, r1 a x ↔ r2 a x) →
      l.orderedInsert r1 a = l.orderedInsert r2 a
  | [], _ => rfl
  | b :: l, h => by
      by_cases hab : r1 a b
      · rw [List.orderedInsert_of_le r1 l hab,
          List.orderedInsert_of_le r2 l ((h b (List.mem_cons_self b l)).mp hab)]
      · have hab2 : ¬ r2 a b := fun hc => hab ((h b (List.mem_cons_self b l)).mpr hc)
        simp only [List.orderedInsert, if_neg hab, if_neg hab2]
        rw [orderedInsert_congr r1 r2 a l (fun x hx => h x (List.mem_cons_of_mem b hx))]

lemma insertionSort_congr {α : Type} (r1 r2 : α → α → Prop)
    [DecidableRel r1] [DecidableRel r2] :
    ∀ (l : List α), (∀ a ∈ l, ∀ b ∈ l, r1 a b ↔ r2 a b) →
      List.insertionSort r1 l = List.insertionSort r2 l
  | [], _ => rfl
  | a :: l, h => by
      simp only [List.insertionSort]
      rw [insertionSort_congr r1 r2 l
        (fun p hp q hq => h p (List.mem_cons_of_mem a hp) q (List.mem_cons_of_mem a hq))]
      apply orderedInsert_congr
      intro x hx
      rw [List.mem_insertionSort] at hx
      exact h a (List.mem_cons_self a l) x (List.mem_cons_of_mem a hx)

lemma basename_pathJoin (d x : String) (hx : '/' ∉ x.data) :
    basename (pathJoin d x) = x := by
  unfold basename pathJoin
  have hdata : (d ++ "/" ++ x).data = d.data ++ ('/' :: x.data) := by
    simp
  rw [hdata, List.reverse_append]
  have hrev : ('/' :: x.data).reverse = x.data.reverse ++ ['/'] := by simp
  rw [hrev, List.append_assoc]
  rw [List.takeWhile_append_of_pos (by
    intro a ha
    rw [List.mem_reverse] at ha
    simp only [decide_eq_true_eq]
    intro hcon
    exact hx (hcon ▸ ha))]
  have hstop : (['/'] ++ d.data.reverse).takeWhile (fun c => decide (c ≠ '/')) = [] := by
    simp
  rw [hstop, List.append_nil, List.reverse_reverse]

lemma framePathKey_pathJoin (d x : String) (hx : '/' ∉ x.data) :
    framePathKey (pathJoin d x) = (firstDigitRun x.data).map digitsToNat := by
  unfold framePathKey
  rw [basename_pathJoin d x hx]

lemma frameRel_iff_keyRel {a b : String} (ha : (framePathKey a).isSome)
    (hb : (framePathKey b).isSome) : frameRel a b ↔ keyRel a b := by
  unfold frameRel keyRel frameCmp framePathKeyD
  rcases hka : framePathKey a with _ | na
  · rw [hka] at ha; simp at ha
  rcases hkb : framePathKey b with _ | nb
  · rw [hkb] at hb; simp at hb
  simp only [hka, hkb, Option.getD_some]
  omega

lemma frameRel_iff_lexRel {a b : String} (ha : framePathKey a = none)
    (hb : framePathKey b = none) : frameRel a b ↔ lexRel a b := by
  unfold frameRel lexRel frameCmp localeCompare
  simp only [ha, hb]
  by_cases h1 : lexLtB a.data b.data = true
  · rw [if_pos h1]
    constructor
    · intro _
      exact lexLtB_asymm _ _ h1
    · intro _
      norm_num
  · rw [if_neg h1]
    by_cases h2 : lexLtB b.data a.data = true
    · rw [if_pos h2]
      constructor
      · intro hc
        norm_num at hc
      · intro hc
        rw [h2] at hc
        exact absurd hc (by simp)
    · rw [if_neg h2]
      constructor
      · intro _
        exact Bool.eq_false_iff.mpr h2
      · intro _
        norm_num

lemma reconcile_frameFiles_root (d : String) (l : List String)
    (so : Option (List String)) :
    (reconcileManifest d ⟨none, some l, so⟩).frameFiles =
      List.insertionSort frameRel ((l.filter isPngName).map (pathJoin d)) := by
  cases so <;>
    simp [reconcileManifest, analyzeExtractedContent, fsExistsSync, fsReaddirSync,
      DirState.listing]

/-- **C4 (counterexample)**: for the root listing
`["zz.png", "a2.png", "m.png", "z1.png"]` — a set mixing digit-bearing and
digit-free names, on which the code's comparator is not transitive — the
reconciled frame list places `a2.png` (first digit run 2) before `z1.png`
(first digit run 1), so it is not sorted ascending by the numeric value of
the first digit run. -/
theorem frame_sort_claim_cex :
    (reconcileManifest "out"
        ⟨none, some ["zz.png", "a2.png", "m.png", "z1.png"], none⟩).frameFiles =
      ["out/a2.png", "out/m.png", "out/z1.png", "out/zz.png"] ∧
    framePathKey "out/a2.png" = some 2 ∧
    framePathKey "out/z1.png" = some 1 ∧
    ¬ (reconcileManifest "out"
        ⟨none, some ["zz.png", "a2.png", "m.png", "z1.png"], none⟩).frameFiles.Pairwise
        (fun a b => digitOrderOKB a b = true) := by
  refine ⟨by decide, by decide, by decide, by decide⟩

/-- **C4 (amended)**: restricted to listings in which every recognised frame
name carries a first digit run, the reconciled frame list is a permutation
of the joined paths sorted ascending by the numeric value of that digit run
(and every entry still carries its digit run); restricted to listings in
which no name carries a digit run, it is sorted lexicographically. The
original unrestricted claim fails on sets mixing the two kinds of names,
where the code's comparator is not transitive (see the counterexample). -/
theorem frame_sort_amended (d : String) (l : List String) (so : Option (List String)) :
    ((∀ x ∈ l, isPngName x = true ∧ '/' ∉ x.data ∧ (firstDigitRun x.data).isSome = true) →
      (reconcileManifest d ⟨none, some l, so⟩).frameFiles.Pairwise keyRel ∧
        (∀ p ∈ (reconcileManifest d ⟨none, some l, so⟩).frameFiles,
          (framePathKey p).isSome = true) ∧
        List.Perm (reconcileManifest d ⟨none, some l, so⟩).frameFiles
          (l.map (pathJoin d))) ∧
    ((∀ x ∈ l, isPngName x = true ∧ '/' ∉ x.data ∧ firstDigitRun x.data = none) →
      (reconcileManifest d ⟨none, some l, so⟩).frameFiles.Pairwise lexRel ∧
        List.Perm (reconcileManifest d ⟨none, some l, so⟩).frameFiles
          (l.map (pathJoin d))) := by
  constructor
  · intro hall
    have hfilter : l.filter isPngName = l :=
      List.filter_eq_self.mpr (fun a ha => (hall a ha).1)
    rw [reconcile_frameFiles_root, hfilter]
    have hkeys : ∀ p ∈ l.map (pathJoin d), (framePathKey p).isSome = true := by
      intro p hp
      rcases List.mem_map.mp hp with ⟨x, hx, rfl⟩
      rw [framePathKey_pathJoin d x (hall x hx).2.1]
      simp only [Option.isSome_map']
      exact (hall x hx).2.2
    refine ⟨?_, ?_, List.perm_insertionSort frameRel _⟩
    · have hcong : List.insertionSort frameRel (l.map (pathJoin d)) =
          List.insertionSort keyRel (l.map (pathJoin d)) := by
        apply insertionSort_congr
        intro p hp q hq
        exact frameRel_iff_keyRel (hkeys p hp) (hkeys q hq)
      rw [hcong]
      letI : IsTotal String keyRel := ⟨fun a b => Nat.le_total _ _⟩
      letI : IsTrans String keyRel := ⟨fun a b c hab hbc => Nat.le_trans hab hbc⟩
      exact List.sorted_insertionSort keyRel (l.map (pathJoin d))
    · intro p hp
      rw [List.mem_insertionSort] at hp
      exact hkeys p hp
  · intro hall
    have hfilter : l.filter isPngName = l :=
      List.filter_eq_self.mpr (fun a ha => (hall a ha).1)
    rw [reconcile_frameFiles_root, hfilter]
    have hkeys : ∀ p ∈ l.map (pathJoin d), framePathKey p = none := by
      intro p hp
      rcases List.mem_map.mp hp with ⟨x, hx, rfl⟩
      rw [framePathKey_pathJoin d x (hall x hx).2.1, (hall x hx).2.2]
      rfl
    refine ⟨?_, List.perm_insertionSort frameRel _⟩
    have hcong : List.insertionSort frameRel (l.map (pathJoin d)) =
        List.insertionSort lexRel (l.map (pathJoin d)) := by
      apply insertionSort_congr
      intro p hp q hq
      exact frameRel_iff_lexRel (hkeys p hp) (hkeys q hq)
    rw [hcong]
    letI : IsTotal String lexRel := ⟨fun a b => by
      by_cases h : lexLtB b.data a.data = true
      · right
        exact lexLtB_asymm _ _ h
      · left
        exact Bool.eq_false_iff.mpr h⟩
    letI : IsTrans String lexRel := ⟨fun a b c hab hbc => by
      have hab2 : lexLtB b.data a.data = false := hab
      have hbc2 : lexLtB c.data b.data = false := hbc
      show lexLtB c.data a.data = false
      by_contra hca2
      have hca : lexLtB c.data a.data = true := by
        revert hca2
        cases lexLtB c.data a.data <;> simp
      rcases lexLtB_trichotomy a.data b.data with h | h | h
      · have hcb : lexLtB c.data b.data = true := lexLtB_trans _ _ _ hca h
        rw [hcb] at hbc2
        exact absurd hbc2 (by simp)
      · rw [← h] at hbc2
        rw [hca] at hbc2
        exact absurd hbc2 (by simp)
      · rw [h] at hab2
        exact absurd hab2 (by simp)⟩
    exact List.sorted_insertionSort lexRel (l.map (pathJoin d))

theorem frame_sort_amended_witness :
    ((reconcileManifest "out"
        ⟨none, some ["2.png", "10.png", "1.png"], none⟩).frameFiles.Pairwise keyRel ∧
      (∀ p ∈ (reconcileManifest "out"
          ⟨none, some ["2.png", "10.png", "1.png"], none⟩).frameFiles,
        (framePathKey p).isSome = true) ∧
      List.Perm
        (reconcileManifest "out" ⟨none, some ["2.png", "10.png", "1.png"], none⟩).frameFiles
        (["2.png", "10.png", "1.png"].map (pathJoin "out"))) ∧
    ((reconcileManifest "out" ⟨none, some ["b.png", "a.png"], none⟩).frameFiles.Pairwise
        lexRel ∧
      List.Perm
        (reconcileManifest "out" ⟨none, some ["b.png", "a.png"], none⟩).frameFiles
        (["b.png", "a.png"].map (pathJoin "out"))) :=
  ⟨(frame_sort_amended "out" ["2.png", "10.png", "1.png"] none).1 (by decide),
   (frame_sort_amended "out" ["b.png", "a.png"] none).2 (by decide)⟩

end Swf2Mp4
